import Mathlib

/-!
Shallow embedding of the `ytnef` Rust wrapper (src/tnef.rs, src/utils.rs,
src/mapi.rs) and proofs of the specification claims about it.

Modelling conventions:
* machine bytes are `Nat` values (< 256 in valid states);
* a Rust `String` is represented by its UTF-8 byte sequence (Rust strings
  are exactly their bytes, and `String::from_utf8` is zero-copy);
* raw pointers in the linked attachment chain are `Option Nat` indices into
  an explicit heap (`none` is the null pointer);
* a Rust function that can panic or loop is embedded with an `Option`
  result or with explicit fuel;
* the external C decoder (`TNEFParse` / `TNEFParseFile` / `TNEFParseMemory`
  from libytnef, which is not part of this repository's sources) is a
  parameter of the construction-path definitions.
-/

namespace Ytnef

/-- Two's-complement wrap of an integer into the `i32` range,
modelling Rust release-mode `i32` arithmetic. -/
def wrapI32 (n : Int) : Int :=
  (n + 2 ^ 31) % 2 ^ 32 - 2 ^ 31

/-- Rust `as usize` cast (64-bit platform) of an `i32`-range value:
negative values sign-extend and wrap modulo `2^64`. -/
def castUsize (n : Int) : Nat :=
  (n % 2 ^ 64).toNat

/-- The `TNEFError` enum from src/tnef.rs, with its explicit
discriminants `-1 .. -9`. -/
inductive TNEFError where
  | CannotInitData
  | NotTnefStream
  | ErrorReadingData
  | NoKey
  | BadChecksum
  | ErrorInHandler
  | UnknownProperty
  | IncorrectSetup
  | UnknownError
deriving Repr, DecidableEq

/-- The declared discriminant of each `TNEFError` variant
(`CannotInitData = -1`, ..., `UnknownError = -9`). -/
def TNEFError.discriminant : TNEFError → Int
  | .CannotInitData => -1
  | .NotTnefStream => -2
  | .ErrorReadingData => -3
  | .NoKey => -4
  | .BadChecksum => -5
  | .ErrorInHandler => -6
  | .UnknownProperty => -7
  | .IncorrectSetup => -8
  | .UnknownError => -9

/-- `impl From<i32> for TNEFError` from src/tnef.rs: the match on the raw
status code. -/
def TNEFError.fromI32 (other : Int) : TNEFError :=
  if other = -1 then .CannotInitData
  else if other = -2 then .NotTnefStream
  else if other = -3 then .ErrorReadingData
  else if other = -4 then .NoKey
  else if other = -5 then .BadChecksum
  else if other = -6 then .ErrorInHandler
  else if other = -7 then .UnknownProperty
  else if other = -8 then .IncorrectSetup
  else .UnknownError

/-- The fixed human-readable message chosen by `impl fmt::Display for
TNEFError` (including the source's spelling). -/
def TNEFError.message : TNEFError → String
  | .CannotInitData => "Cannot initialize data"
  | .NotTnefStream => "Not a TNEF stream"
  | .ErrorReadingData => "Error reading data"
  | .NoKey => "No key"
  | .BadChecksum => "Bad checksum"
  | .ErrorInHandler => "Error in I/O handler"
  | .UnknownProperty => "Unkown property"
  | .IncorrectSetup => "Incorrect setup"
  | .UnknownError => "Unkown error"

/-- The numeric code printed by `Display`: the Rust expression
`*self as u8`, i.e. the discriminant reduced modulo `2^8`. -/
def TNEFError.displayCode (e : TNEFError) : Nat :=
  (e.discriminant % 2 ^ 8).toNat

/-- `write!(f, "{} ({})", msg, *self as u8)` from src/tnef.rs. -/
def TNEFError.display (e : TNEFError) : String :=
  e.message ++ " (" ++ Nat.repr e.displayCode ++ ")"

/-- The `variableLength` struct: a size (a C `int`, so a signed value)
paired with the byte region its data pointer addresses. -/
structure VariableLength where
  size : Int
  data : List Nat
deriving Repr, DecidableEq, Inhabited

/-- `vec_from_varlen` from src/utils.rs: `None` when `size < 1`, otherwise
a copy of the `size` bytes at the data pointer
(`slice::from_raw_parts(attr.data, attr.size as usize).to_vec()`). -/
def vec_from_varlen (attr : VariableLength) : Option (List Nat) :=
  if attr.size < 1 then none
  else some (attr.data.take attr.size.toNat)

/-- Whether `b` is a UTF-8 continuation byte (`0x80 ..= 0xBF`). -/
def utf8Cont (b : Nat) : Bool :=
  0x80 ≤ b && b < 0xC0

/-- UTF-8 validity of a byte sequence (RFC 3629: rejects continuation
bytes out of place, overlong encodings, surrogates and code points above
U+10FFFF), the check performed by Rust's `String::from_utf8`. -/
def validUtf8 : List Nat → Bool
  | [] => true
  | b :: rest =>
    if b < 0x80 then validUtf8 rest
    else if b < 0xC2 then false
    else if b < 0xE0 then
      match rest with
      | b1 :: r => utf8Cont b1 && validUtf8 r
      | [] => false
    else if b < 0xF0 then
      match rest with
      | b1 :: b2 :: r =>
        (if b = 0xE0 then 0xA0 ≤ b1 && b1 < 0xC0
         else if b = 0xED then 0x80 ≤ b1 && b1 < 0xA0
         else utf8Cont b1) && utf8Cont b2 && validUtf8 r
      | _ => false
    else if b < 0xF5 then
      match rest with
      | b1 :: b2 :: b3 :: r =>
        (if b = 0xF0 then 0x90 ≤ b1 && b1 < 0xC0
         else if b = 0xF4 then 0x80 ≤ b1 && b1 < 0x90
         else utf8Cont b1) && utf8Cont b2 && utf8Cont b3 && validUtf8 r
      | _ => false
    else false

/-- `string_from_varlen` from src/utils.rs:
`String::from_utf8(vec_from_varlen(attr)?).ok()`. The Rust `String` is
represented by its byte sequence (`String::from_utf8` is zero-copy, so a
successful result holds exactly the input bytes). -/
def string_from_varlen (attr : VariableLength) : Option (List Nat) :=
  match vec_from_varlen attr with
  | none => none
  | some v => if validUtf8 v then some v else none

/-- The `dtr` struct from ytnef: raw `u16` calendar fields. -/
structure Dtr where
  wYear : Nat
  wMonth : Nat
  wDay : Nat
  wHour : Nat
  wMinute : Nat
  wSecond : Nat
deriving Repr, DecidableEq, Inhabited

/-- Whether `y` is a leap year (proleptic Gregorian, as in chrono). -/
def isLeapYear (y : Nat) : Bool :=
  (y % 4 = 0 && y % 100 ≠ 0) || y % 400 = 0

/-- Number of days in month `m` of year `y`. -/
def daysInMonth (y m : Nat) : Nat :=
  if m = 2 then (if isLeapYear y then 29 else 28)
  else if m = 4 || m = 6 || m = 9 || m = 11 then 30
  else 31

/-- The result type of `datetime_from_dtr`: a `chrono::NaiveDateTime`
represented by its six calendar components. -/
structure NaiveDateTime where
  year : Nat
  month : Nat
  day : Nat
  hour : Nat
  minute : Nat
  second : Nat
deriving Repr, DecidableEq, Inhabited

/-- `chrono::NaiveDate::from_ymd`: panics (modelled as `none`) unless the
month is `1..=12` and the day is `1..=daysInMonth`; a `u16` year is always
inside chrono's representable year range. -/
def naiveDate_from_ymd (y m d : Nat) : Option (Nat × Nat × Nat) :=
  if 1 ≤ m && m ≤ 12 && 1 ≤ d && d ≤ daysInMonth y m then some (y, m, d)
  else none

/-- `chrono::NaiveTime::from_hms`: panics (modelled as `none`) unless
hour < 24, minute < 60, second < 60. -/
def naiveTime_from_hms (h mi s : Nat) : Option (Nat × Nat × Nat) :=
  if h < 24 && mi < 60 && s < 60 then some (h, mi, s)
  else none

/-- `datetime_from_dtr` from src/utils.rs: builds the date from
`wYear`/`wMonth`/`wDay`, the time from `wHour`/`wMinute`/`wSecond`, and
pairs them with `NaiveDateTime::new`; a panic inside chrono's constructors
is modelled as `none`. -/
def datetime_from_dtr (date : Dtr) : Option NaiveDateTime := do
  let (y, m, d) ← naiveDate_from_ymd date.wYear date.wMonth date.wDay
  let (h, mi, s) ← naiveTime_from_hms date.wHour date.wMinute date.wSecond
  pure ⟨y, m, d, h, mi, s⟩

/-- The `MAPIProperty` struct fields the wrapper reads (src/mapi.rs):
`namedproperty` is a C `int` holding the count of entries in the
`propnames` array of `variableLength` values. -/
structure MAPIProperty where
  custom : Nat
  guid : List Nat
  id : Nat
  count : Nat
  namedproperty : Int
  propnames : List VariableLength
  data : VariableLength
deriving Repr, DecidableEq, Inhabited

/-- The `for i in 0..count { output.push(f(i)?) }` loop shape: decode each
index in order, aborting the whole computation with `none` at the first
failing entry. -/
def collectStrings (f : Nat → Option (List Nat)) : List Nat → Option (List (List Nat))
  | [] => some []
  | i :: is =>
    match f i with
    | none => none
    | some s =>
      match collectStrings f is with
      | none => none
      | some rest => some (s :: rest)

/-- `MAPIProperty::named_properties` from src/mapi.rs: `None` when the
count stored in `namedproperty` is `< 1`; otherwise for each
`i in 0..count` read `propnames[i]` and decode it with
`string_from_varlen`, the `?` operator aborting the whole call with `None`
on the first failure (reading past the `propnames` array is undefined
behaviour in the source; the model yields a default there). -/
def MAPIProperty.named_properties (p : MAPIProperty) : Option (List (List Nat)) :=
  if p.namedproperty < 1 then none
  else
    collectStrings (fun i => string_from_varlen (p.propnames.getD i default))
      (List.range p.namedproperty.toNat)

/-- `MAPIProperty::data` accessor. -/
def MAPIProperty.dataBytes (p : MAPIProperty) : Option (List Nat) :=
  vec_from_varlen p.data

/-- The `renderdata` struct copied out by `TNEFAttachment::render_data`. -/
structure RenderData where
  atyp : Nat
  ulPosition : Nat
  dxWidth : Nat
  dyHeight : Nat
  dwFlags : Nat
deriving Repr, DecidableEq, Inhabited

/-- The `Attachment` struct fields the wrapper reads. The C `next`
pointer of the intrusive linked list is an `Option Nat` index into an
attachment heap (`none` = null). -/
structure Attachment where
  Date : Dtr
  Title : VariableLength
  CreateDate : Dtr
  ModifyDate : Dtr
  TransportFilename : VariableLength
  RenderData : RenderData
  FileData : VariableLength
  IconData : VariableLength
  next : Option Nat
deriving Repr, DecidableEq, Inhabited

/-- The `MAPIProps` list inside `TNEFStruct`: an explicit count and the
contiguous `properties` array it indexes. -/
structure MAPIProps where
  count : Nat
  properties : List MAPIProperty
deriving Repr, DecidableEq, Inhabited

/-- The `TNEFStruct` fields the wrapper reads, together with `attachHeap`,
the region of memory holding the linked attachment nodes that the raw
`next` pointers address. -/
structure TNEFStruct where
  version : List Nat
  from_ : VariableLength
  subject : VariableLength
  body : VariableLength
  dateSent : Dtr
  dateReceived : Dtr
  dateModified : Dtr
  DateStart : Dtr
  DateEnd : Dtr
  starting_attach : Attachment
  attachHeap : List Attachment
  MapiProperties : MAPIProps
  CodePage : VariableLength
deriving Repr, DecidableEq, Inhabited

namespace TNEFFile

/-- The `while !curr_attach.is_null()` loop of `TNEFFile::attachments`:
follow `next` pointers through the heap, copying each node out, until the
first null link. `fuel` bounds the loop (the Rust loop has no bound and
would not terminate on a cyclic chain); dereferencing a dangling pointer
(undefined behaviour in the source) stops the walk. -/
def collectChain (heap : List Attachment) : Option Nat → Nat → List Attachment
  | none, _ => []
  | some _, 0 => []
  | some p, fuel + 1 =>
    match heap.get? p with
    | none => []
    | some a => a :: collectChain heap a.next fuel

/-- `TNEFFile::attachments` from src/tnef.rs: push `starting_attach`
itself, then walk `starting_attach.next` to the first null link. -/
def attachments (t : TNEFStruct) (fuel : Nat) : List Attachment :=
  t.starting_attach :: collectChain t.attachHeap t.starting_attach.next fuel

/-- `TNEFFile::mapi_properties` from src/tnef.rs: `for i in
0..props_list.count` read `properties[i]` (reading past the array is
undefined behaviour in the source; the model yields a default there). -/
def mapi_properties (t : TNEFStruct) : List MAPIProperty :=
  (List.range t.MapiProperties.count).map
    (fun i => t.MapiProperties.properties.getD i default)

/-- `TNEFFile::date_sent`. -/
def date_sent (t : TNEFStruct) : Option NaiveDateTime :=
  datetime_from_dtr t.dateSent

/-- `TNEFFile::date_received`. -/
def date_received (t : TNEFStruct) : Option NaiveDateTime :=
  datetime_from_dtr t.dateReceived

/-- `TNEFFile::date_modified`. -/
def date_modified (t : TNEFStruct) : Option NaiveDateTime :=
  datetime_from_dtr t.dateModified

/-- `TNEFFile::date_start`. -/
def date_start (t : TNEFStruct) : Option NaiveDateTime :=
  datetime_from_dtr t.DateStart

/-- `TNEFFile::date_end`. -/
def date_end (t : TNEFStruct) : Option NaiveDateTime :=
  datetime_from_dtr t.DateEnd

end TNEFFile

namespace TNEFAttachment

/-- `TNEFAttachment::date`. -/
def date (a : Attachment) : Option NaiveDateTime :=
  datetime_from_dtr a.Date

/-- `TNEFAttachment::create_date`. -/
def create_date (a : Attachment) : Option NaiveDateTime :=
  datetime_from_dtr a.CreateDate

/-- `TNEFAttachment::modify_date`. -/
def modify_date (a : Attachment) : Option NaiveDateTime :=
  datetime_from_dtr a.ModifyDate

end TNEFAttachment

/-- `NullTerminated heap p l` says that `l` is exactly the sequence of
attachment nodes reached from pointer `p` by following `next` links in
forward order, ending at the first null link. -/
inductive NullTerminated (heap : List Attachment) : Option Nat → List Attachment → Prop where
  | nil : NullTerminated heap none []
  | cons {p : Nat} {a : Attachment} {l : List Attachment} :
      heap.get? p = some a → NullTerminated heap a.next l →
      NullTerminated heap (some p) (a :: l)

/-- `tnef_io_open` from src/tnef.rs: a no-op that returns 0. -/
def tnef_io_open : Int := 0

/-- `tnef_io_close` from src/tnef.rs: a no-op that returns 0. -/
def tnef_io_close : Int := 0

/-- The outcome of one `Read::read(&mut buffer)` call on the wrapped
reader: `ok bs` means the reader wrote the bytes `bs` into a prefix of the
buffer (`bs.length ≤ buffer.length` by the `Read` contract) and returned
`bs.length`; `err` is an `Err(_)` I/O failure. -/
inductive ReadOutcome where
  | ok (bs : List Nat)
  | err
deriving Repr, DecidableEq

/-- `tnef_io_read` from src/tnef.rs. `size` and `count` are C `int`s;
`buffer_size = (size * count) as usize` (i32 arithmetic, then a sign-
extending cast); a fresh zeroed buffer of exactly `buffer_size` bytes is
allocated, the reader fills a prefix of it, the whole buffer is copied to
`dest` unconditionally, and the return value is the reader's byte count
(cast to `i32`) or `-1` on `Err`. Returns the updated `dest` region and
the `c_int` result. -/
def tnef_io_read (size count : Int) (dest : List Nat) (outcome : ReadOutcome) :
    List Nat × Int :=
  let buffer_size : Nat := castUsize (wrapI32 (size * count))
  let buffer : List Nat :=
    match outcome with
    | .ok bs => bs.take buffer_size ++ List.replicate (buffer_size - bs.length) 0
    | .err => List.replicate buffer_size 0
  let bytes_read : Int :=
    match outcome with
    | .ok bs => wrapI32 (bs.length : Int)
    | .err => -1
  (buffer ++ dest.drop buffer_size, bytes_read)

/-- Shared tail of the three constructors: `if result < 0 {
Err(result.into()) } else { Ok(inner) }`. -/
def wrapParse (result : Int) (inner : TNEFStruct) : Except TNEFError TNEFStruct :=
  if result < 0 then .error (TNEFError.fromI32 result) else .ok inner

/-- The external decoder entry points (`TNEFParse`, `TNEFParseFile`,
`TNEFParseMemory` of libytnef, outside this repository's sources) as one
function of the byte sequence they are fed, per the spec: each path
delivers its bytes to the same decoder core, which returns a status code
and fills the `TNEFStruct`. -/
def ParseCore : Type := List Nat → Int × TNEFStruct

/-- `TNEFFile::new` from src/tnef.rs: wraps the reader behind the custom
I/O interface (which feeds the reader's byte stream to the core) and runs
`TNEFParse`. -/
def TNEFFile.new (parse : ParseCore) (bytes : List Nat) : Except TNEFError TNEFStruct :=
  wrapParse (parse bytes).1 (parse bytes).2

/-- `TNEFFile::from_file` from src/tnef.rs: `CString::new(path)` fails on
an interior NUL byte (→ `CannotInitData`); otherwise `TNEFParseFile` reads
the file's bytes (`fs path`) and parses them. -/
def TNEFFile.from_file (parse : ParseCore) (fs : List Nat → List Nat)
    (path : List Nat) : Except TNEFError TNEFStruct :=
  if path.contains 0 then .error .CannotInitData
  else wrapParse (parse (fs path)).1 (parse (fs path)).2

/-- `TNEFFile::from_buffer` from src/tnef.rs: `TNEFParseMemory` over the
in-memory bytes. -/
def TNEFFile.from_buffer (parse : ParseCore) (buffer : List Nat) :
    Except TNEFError TNEFStruct :=
  wrapParse (parse buffer).1 (parse buffer).2

/-! ## Theorems -/

/-- Claim C3: for every `variableLength` value whose data region is large
enough for its declared size, `vec_from_varlen` returns `None` exactly
when `size < 1` (never an empty present value there), and otherwise
returns `Some` of a vector of exactly `size` bytes, byte-for-byte equal to
the field's data. -/
theorem C3_vec_from_varlen (attr : VariableLength)
    (h : attr.size.toNat ≤ attr.data.length) :
    (vec_from_varlen attr = none ↔ attr.size < 1) ∧
    (1 ≤ attr.size →
      ∃ v, vec_from_varlen attr = some v ∧
        v.length = attr.size.toNat ∧
        v = attr.data.take attr.size.toNat ∧
        (attr.data.length = attr.size.toNat → v = attr.data)) := by
  constructor
  · unfold vec_from_varlen
    split <;> simp_all
  · intro h1
    have hlt : ¬ attr.size < 1 := by omega
    refine ⟨attr.data.take attr.size.toNat, ?_, ?_, rfl, ?_⟩
    · unfold vec_from_varlen
      simp [hlt]
    · simp [List.length_take]
      omega
    · intro he
      rw [← he, List.take_length]

/-- Witness for C3 at the concrete field `⟨2, [7, 8]⟩`. -/
theorem C3_vec_from_varlen_witness :
    (vec_from_varlen ⟨2, [7, 8]⟩ = none ↔ (⟨2, [7, 8]⟩ : VariableLength).size < 1) ∧
    (1 ≤ (⟨2, [7, 8]⟩ : VariableLength).size →
      ∃ v, vec_from_varlen ⟨2, [7, 8]⟩ = some v ∧
        v.length = (⟨2, [7, 8]⟩ : VariableLength).size.toNat ∧
        v = (⟨2, [7, 8]⟩ : VariableLength).data.take
          (⟨2, [7, 8]⟩ : VariableLength).size.toNat ∧
        ((⟨2, [7, 8]⟩ : VariableLength).data.length =
            (⟨2, [7, 8]⟩ : VariableLength).size.toNat →
          v = (⟨2, [7, 8]⟩ : VariableLength).data)) :=
  C3_vec_from_varlen ⟨2, [7, 8]⟩ (by decide)

/-- Claim C4: `string_from_varlen` returns `None` when `size < 1` or when
the `size` bytes are not valid UTF-8, and otherwise returns `Some` of the
string whose bytes are exactly the field's bytes — never a lossy or
garbled string. -/
theorem C4_string_from_varlen (attr : VariableLength) :
    (attr.size < 1 ∨ validUtf8 (attr.data.take attr.size.toNat) = false →
      string_from_varlen attr = none) ∧
    (1 ≤ attr.size → validUtf8 (attr.data.take attr.size.toNat) = true →
      string_from_varlen attr = some (attr.data.take attr.size.toNat)) := by
  constructor
  · rintro (h | h)
    · simp [string_from_varlen, vec_from_varlen, h]
    · by_cases h1 : attr.size < 1
      · simp [string_from_varlen, vec_from_varlen, h1]
      · simp [string_from_varlen, vec_from_varlen, h1, h]
  · intro h1 h2
    have hlt : ¬ attr.size < 1 := by omega
    simp [string_from_varlen, vec_from_varlen, hlt, h2]

/-- Witness for C4: the size-1 field holding the invalid UTF-8 byte
`0xFF` decodes to `none`, while the field holding `"hi"` decodes to its
exact bytes. -/
theorem C4_string_from_varlen_witness :
    string_from_varlen ⟨1, [255]⟩ = none ∧
    string_from_varlen ⟨2, [104, 105]⟩ = some [104, 105] :=
  ⟨(C4_string_from_varlen ⟨1, [255]⟩).1 (Or.inr (by decide)),
   (C4_string_from_varlen ⟨2, [104, 105]⟩).2 (by decide) (by decide)⟩

/-- Claim C9: `From<i32>` maps `-1` through `-8` respectively to
`CannotInitData`, `NotTnefStream`, `ErrorReadingData`, `NoKey`,
`BadChecksum`, `ErrorInHandler`, `UnknownProperty`, `IncorrectSetup`, and
every negative status not otherwise classified to `UnknownError`. -/
theorem C9_error_mapping :
    TNEFError.fromI32 (-1) = .CannotInitData ∧
    TNEFError.fromI32 (-2) = .NotTnefStream ∧
    TNEFError.fromI32 (-3) = .ErrorReadingData ∧
    TNEFError.fromI32 (-4) = .NoKey ∧
    TNEFError.fromI32 (-5) = .BadChecksum ∧
    TNEFError.fromI32 (-6) = .ErrorInHandler ∧
    TNEFError.fromI32 (-7) = .UnknownProperty ∧
    TNEFError.fromI32 (-8) = .IncorrectSetup ∧
    ∀ n : Int, n < 0 → ¬(-8 ≤ n ∧ n ≤ -1) → TNEFError.fromI32 n = .UnknownError := by
  refine ⟨by decide, by decide, by decide, by decide, by decide, by decide,
    by decide, by decide, ?_⟩
  intro n h1 h2
  have e1 : n ≠ -1 := by omega
  have e2 : n ≠ -2 := by omega
  have e3 : n ≠ -3 := by omega
  have e4 : n ≠ -4 := by omega
  have e5 : n ≠ -5 := by omega
  have e6 : n ≠ -6 := by omega
  have e7 : n ≠ -7 := by omega
  have e8 : n ≠ -8 := by omega
  simp only [TNEFError.fromI32, if_neg e1, if_neg e2, if_neg e3, if_neg e4,
    if_neg e5, if_neg e6, if_neg e7, if_neg e8]

/-- Witness for C9: the unclassified negative status `-12` maps to
`UnknownError`. -/
theorem C9_error_mapping_witness :
    TNEFError.fromI32 (-12) = .UnknownError :=
  C9_error_mapping.2.2.2.2.2.2.2.2 (-12) (by decide) (by decide)

/-- Claim C10: the `Display` output of each error kind is its fixed
message followed by the discriminant cast to `u8` — the negative status
wrapped modulo 256 (255 for `CannotInitData`, 254 for `NotTnefStream`),
never the negative status itself — and `From<i32>` sends every
non-negative status (not only unclassified negative ones) to
`UnknownError`. -/
theorem C10_display_code :
    TNEFError.displayCode .CannotInitData = 255 ∧
    TNEFError.displayCode .NotTnefStream = 254 ∧
    (∀ e : TNEFError, (e.displayCode : Int) = e.discriminant % 2 ^ 8) ∧
    (∀ e : TNEFError, e.discriminant < 0 ∧ (e.displayCode : Int) ≠ e.discriminant) ∧
    (∀ e : TNEFError, e.display = e.message ++ " (" ++ Nat.repr e.displayCode ++ ")") ∧
    (∀ n : Int, 0 ≤ n → TNEFError.fromI32 n = .UnknownError) := by
  refine ⟨by decide, by decide, ?_, ?_, ?_, ?_⟩
  · intro e
    cases e <;> decide
  · intro e
    cases e <;> decide
  · intro e
    rfl
  · intro n h
    have e1 : n ≠ -1 := by omega
    have e2 : n ≠ -2 := by omega
    have e3 : n ≠ -3 := by omega
    have e4 : n ≠ -4 := by omega
    have e5 : n ≠ -5 := by omega
    have e6 : n ≠ -6 := by omega
    have e7 : n ≠ -7 := by omega
    have e8 : n ≠ -8 := by omega
    simp only [TNEFError.fromI32, if_neg e1, if_neg e2, if_neg e3, if_neg e4,
      if_neg e5, if_neg e6, if_neg e7, if_neg e8]

/-- Witness for C10: the non-negative status `7` maps to `UnknownError`,
and `BadChecksum` prints code `251 = -5 mod 256`. -/
theorem C10_display_code_witness :
    TNEFError.fromI32 7 = .UnknownError ∧
    (TNEFError.displayCode .BadChecksum : Int) = TNEFError.discriminant .BadChecksum % 2 ^ 8 :=
  ⟨C10_display_code.2.2.2.2.2 7 (by decide),
   C10_display_code.2.2.1 .BadChecksum⟩

/-- The `?`-loop aborts with `none` as soon as one index fails to
decode. -/
theorem collectStrings_none {f : Nat → Option (List Nat)} {l : List Nat} {i : Nat}
    (hi : i ∈ l) (hf : f i = none) : collectStrings f l = none := by
  induction l with
  | nil => cases hi
  | cons a as ih =>
    rcases List.mem_cons.mp hi with h | h
    · subst h
      simp [collectStrings, hf]
    · cases hfa : f a with
      | none => simp [collectStrings, hfa]
      | some s => simp [collectStrings, hfa, ih h]

/-- When every index decodes, the `?`-loop returns all decoded values in
index order. -/
theorem collectStrings_some {f : Nat → Option (List Nat)} {l : List Nat}
    (hf : ∀ i ∈ l, (f i).isSome) :
    collectStrings f l = some (l.map (fun i => (f i).getD [])) := by
  induction l with
  | nil => rfl
  | cons a as ih =>
    have ha : (f a).isSome := hf a (List.mem_cons_self a as)
    cases hfa : f a with
    | none => rw [hfa] at ha; cases ha
    | some s =>
      have ih' := ih (fun i hi => hf i (List.mem_cons_of_mem a hi))
      simp [collectStrings, hfa, ih']

/-- Claim C5: `named_properties` returns `None` when the stored count is
less than 1; with a positive count it visits exactly that many
variable-length text entries in index order, returning `None` for the
entire collection if any single entry fails to decode, and otherwise
`Some` of all decoded names in order. -/
theorem C5_named_properties (p : MAPIProperty) :
    (p.namedproperty < 1 → p.named_properties = none) ∧
    (1 ≤ p.namedproperty →
      ((∃ i < p.namedproperty.toNat,
          string_from_varlen (p.propnames.getD i default) = none) →
        p.named_properties = none) ∧
      ((∀ i < p.namedproperty.toNat,
          (string_from_varlen (p.propnames.getD i default)).isSome) →
        p.named_properties =
          some ((List.range p.namedproperty.toNat).map
            (fun i => (string_from_varlen (p.propnames.getD i default)).getD [])))) := by
  refine ⟨?_, ?_⟩
  · intro h
    simp [MAPIProperty.named_properties, h]
  · intro h
    have hlt : ¬ p.namedproperty < 1 := by omega
    constructor
    · rintro ⟨i, hi, hnone⟩
      unfold MAPIProperty.named_properties
      rw [if_neg hlt]
      exact collectStrings_none (List.mem_range.mpr hi) hnone
    · intro hall
      unfold MAPIProperty.named_properties
      rw [if_neg hlt]
      exact collectStrings_some (fun i hi => hall i (List.mem_range.mp hi))

/-- Witness for C5: a property carrying two decodable names yields both
in order, and a property with count 0 yields `none`. -/
theorem C5_named_properties_witness :
    MAPIProperty.named_properties ⟨0, [], 0, 0, 2, [⟨1, [104]⟩, ⟨1, [105]⟩], default⟩ =
      some [[104], [105]] ∧
    MAPIProperty.named_properties ⟨0, [], 0, 0, 0, [], default⟩ = none := by
  constructor
  · have h := ((C5_named_properties
      ⟨0, [], 0, 0, 2, [⟨1, [104]⟩, ⟨1, [105]⟩], default⟩).2 (by decide)).2 (by decide)
    rw [h]
    decide
  · exact (C5_named_properties ⟨0, [], 0, 0, 0, [], default⟩).1 (by decide)

/-- Mapping `i ↦ l[i]` over `range n` recovers the first `n` elements of
`l`. -/
theorem map_getD_range {α : Type} [Inhabited α] (l : List α) (n : Nat)
    (h : n ≤ l.length) :
    (List.range n).map (fun i => l.getD i default) = l.take n := by
  induction n with
  | zero => simp
  | succ k ih =>
    have hk : k ≤ l.length := by omega
    have hlt : k < l.length := by omega
    rw [List.range_succ, List.map_append, ih hk, List.take_succ]
    congr 1
    simp [List.getD, List.getElem?_eq_getElem hlt]

/-- Claim C6: `mapi_properties` returns exactly `count` entries — the
explicit count stored in the property list — read in order from the
contiguous `properties` array, with no terminator involved. -/
theorem C6_mapi_properties (t : TNEFStruct)
    (h : t.MapiProperties.count ≤ t.MapiProperties.properties.length) :
    (TNEFFile.mapi_properties t).length = t.MapiProperties.count ∧
    TNEFFile.mapi_properties t =
      t.MapiProperties.properties.take t.MapiProperties.count := by
  constructor
  · simp [TNEFFile.mapi_properties]
  · unfold TNEFFile.mapi_properties
    exact map_getD_range _ _ h

/-- Witness for C6 on a struct holding two properties with count 2. -/
theorem C6_mapi_properties_witness :
    (TNEFFile.mapi_properties
      { (default : TNEFStruct) with
        MapiProperties := ⟨2, [default, default]⟩ }).length =
      (2 : Nat) ∧
    TNEFFile.mapi_properties
      { (default : TNEFStruct) with MapiProperties := ⟨2, [default, default]⟩ } =
      [default, default] := by
  have h := C6_mapi_properties
    { (default : TNEFStruct) with MapiProperties := ⟨2, [default, default]⟩ }
    (by decide)
  exact ⟨h.1, by rw [h.2]; rfl⟩

/-- Closed form of `datetime_from_dtr`: the raw fields pass through
unchanged when the calendar and clock checks succeed, and construction
fails (chrono panics) otherwise. -/
theorem datetime_from_dtr_eq (d : Dtr) :
    datetime_from_dtr d =
      if (1 ≤ d.wMonth && d.wMonth ≤ 12 && 1 ≤ d.wDay &&
            d.wDay ≤ daysInMonth d.wYear d.wMonth) &&
          (d.wHour < 24 && d.wMinute < 60 && d.wSecond < 60)
        then some ⟨d.wYear, d.wMonth, d.wDay, d.wHour, d.wMinute, d.wSecond⟩
        else none := by
  unfold datetime_from_dtr naiveDate_from_ymd naiveTime_from_hms
  by_cases h1 : (1 ≤ d.wMonth && d.wMonth ≤ 12 && 1 ≤ d.wDay &&
      d.wDay ≤ daysInMonth d.wYear d.wMonth) = true <;>
    by_cases h2 : (d.wHour < 24 && d.wMinute < 60 && d.wSecond < 60) = true <;>
    simp [h1, h2]

/-- Claim C7: every date accessor (the five on the document and the three
on an attachment) goes through `datetime_from_dtr`, whose construction
fails — visibly to the caller, as a chrono panic modelled by `none` —
exactly when the raw year/month/day/hour/minute/second fields hold
invalid calendar values, and whose successful result carries the raw
field values unchanged (no clamping). -/
theorem C7_date_accessors :
    (∀ d : Dtr,
      datetime_from_dtr d = none ↔
        ¬(1 ≤ d.wMonth ∧ d.wMonth ≤ 12 ∧ 1 ≤ d.wDay ∧
          d.wDay ≤ daysInMonth d.wYear d.wMonth ∧
          d.wHour < 24 ∧ d.wMinute < 60 ∧ d.wSecond < 60)) ∧
    (∀ d : Dtr, ∀ v : NaiveDateTime, datetime_from_dtr d = some v →
      v.year = d.wYear ∧ v.month = d.wMonth ∧ v.day = d.wDay ∧
      v.hour = d.wHour ∧ v.minute = d.wMinute ∧ v.second = d.wSecond) ∧
    (∀ t : TNEFStruct,
      TNEFFile.date_sent t = datetime_from_dtr t.dateSent ∧
      TNEFFile.date_received t = datetime_from_dtr t.dateReceived ∧
      TNEFFile.date_modified t = datetime_from_dtr t.dateModified ∧
      TNEFFile.date_start t = datetime_from_dtr t.DateStart ∧
      TNEFFile.date_end t = datetime_from_dtr t.DateEnd) ∧
    (∀ a : Attachment,
      TNEFAttachment.date a = datetime_from_dtr a.Date ∧
      TNEFAttachment.create_date a = datetime_from_dtr a.CreateDate ∧
      TNEFAttachment.modify_date a = datetime_from_dtr a.ModifyDate) := by
  refine ⟨?_, ?_, fun t => ⟨rfl, rfl, rfl, rfl, rfl⟩, fun a => ⟨rfl, rfl, rfl⟩⟩
  · intro d
    have hiff : ((1 ≤ d.wMonth && d.wMonth ≤ 12 && 1 ≤ d.wDay &&
          d.wDay ≤ daysInMonth d.wYear d.wMonth) &&
        (d.wHour < 24 && d.wMinute < 60 && d.wSecond < 60)) = true ↔
        (1 ≤ d.wMonth ∧ d.wMonth ≤ 12 ∧ 1 ≤ d.wDay ∧
          d.wDay ≤ daysInMonth d.wYear d.wMonth ∧
          d.wHour < 24 ∧ d.wMinute < 60 ∧ d.wSecond < 60) := by
      simp [Bool.and_eq_true, decide_eq_true_eq]
      tauto
    rw [datetime_from_dtr_eq]
    split
    · rename_i hc
      constructor
      · intro hbad
        cases hbad
      · intro hnp
        exact absurd (hiff.mp hc) hnp
    · rename_i hc
      have hnp : ¬(1 ≤ d.wMonth ∧ d.wMonth ≤ 12 ∧ 1 ≤ d.wDay ∧
          d.wDay ≤ daysInMonth d.wYear d.wMonth ∧
          d.wHour < 24 ∧ d.wMinute < 60 ∧ d.wSecond < 60) :=
        fun hp => hc (hiff.mpr hp)
      simp [hnp]
  · intro d v hv
    rw [datetime_from_dtr_eq] at hv
    by_cases hc : ((1 ≤ d.wMonth && d.wMonth ≤ 12 && 1 ≤ d.wDay &&
          d.wDay ≤ daysInMonth d.wYear d.wMonth) &&
        (d.wHour < 24 && d.wMinute < 60 && d.wSecond < 60)) = true
    · rw [if_pos hc] at hv
      cases hv
      exact ⟨rfl, rfl, rfl, rfl, rfl, rfl⟩
    · rw [if_neg hc] at hv
      cases hv

/-- Witness for C7: February 29 of the non-leap year 2023 fails
construction, while February 29 of 2024 succeeds with every raw field
carried through unchanged. -/
theorem C7_date_accessors_witness :
    datetime_from_dtr ⟨2023, 2, 29, 1, 2, 3⟩ = none ∧
    ((⟨2024, 2, 29, 1, 2, 3⟩ : NaiveDateTime).year =
        (⟨2024, 2, 29, 1, 2, 3⟩ : Dtr).wYear ∧
      (⟨2024, 2, 29, 1, 2, 3⟩ : NaiveDateTime).month =
        (⟨2024, 2, 29, 1, 2, 3⟩ : Dtr).wMonth ∧
      (⟨2024, 2, 29, 1, 2, 3⟩ : NaiveDateTime).day =
        (⟨2024, 2, 29, 1, 2, 3⟩ : Dtr).wDay ∧
      (⟨2024, 2, 29, 1, 2, 3⟩ : NaiveDateTime).hour =
        (⟨2024, 2, 29, 1, 2, 3⟩ : Dtr).wHour ∧
      (⟨2024, 2, 29, 1, 2, 3⟩ : NaiveDateTime).minute =
        (⟨2024, 2, 29, 1, 2, 3⟩ : Dtr).wMinute ∧
      (⟨2024, 2, 29, 1, 2, 3⟩ : NaiveDateTime).second =
        (⟨2024, 2, 29, 1, 2, 3⟩ : Dtr).wSecond) :=
  ⟨(C7_date_accessors.1 ⟨2023, 2, 29, 1, 2, 3⟩).mpr (by decide),
   C7_date_accessors.2.1 ⟨2024, 2, 29, 1, 2, 3⟩ ⟨2024, 2, 29, 1, 2, 3⟩ (by decide)⟩

/-- With enough fuel, the `while` loop of `attachments` returns exactly
the null-terminated forward chain. -/
theorem collectChain_eq {heap : List Attachment} {p : Option Nat}
    {l : List Attachment} (h : NullTerminated heap p l) :
    ∀ fuel : Nat, l.length ≤ fuel → TNEFFile.collectChain heap p fuel = l := by
  induction h with
  | nil =>
    intro fuel _
    cases fuel <;> rfl
  | @cons q a tail hget htail ih =>
    intro fuel hlen
    cases fuel with
    | zero => simp at hlen
    | succ f =>
      have hl : tail.length ≤ f := by
        simp at hlen
        omega
      simp [TNEFFile.collectChain, ← List.get?_eq_getElem?, hget, ih f hl]

/-- Claim C1: `attachments` returns the distinguished starting attachment
(as real data) first, followed by the linked nodes in forward-link order
up to the first null link, so the result always has length at least 1. -/
theorem C1_attachments (t : TNEFStruct) (fuel : Nat) (l : List Attachment)
    (hl : NullTerminated t.attachHeap t.starting_attach.next l)
    (hfuel : l.length ≤ fuel) :
    TNEFFile.attachments t fuel = t.starting_attach :: l ∧
    (TNEFFile.attachments t fuel).head? = some t.starting_attach ∧
    1 ≤ (TNEFFile.attachments t fuel).length := by
  refine ⟨?_, rfl, ?_⟩
  · unfold TNEFFile.attachments
    rw [collectChain_eq hl fuel hfuel]
  · simp [TNEFFile.attachments]

/-- Witness for C1: a struct whose starting attachment links to heap node
0, which links to node 1, which ends the chain. -/
theorem C1_attachments_witness :
    TNEFFile.attachments
        { (default : TNEFStruct) with
          starting_attach := { (default : Attachment) with next := some 0 },
          attachHeap := [{ (default : Attachment) with next := some 1 },
            { (default : Attachment) with next := none }] } 5 =
      { (default : Attachment) with next := some 0 } ::
        [{ (default : Attachment) with next := some 1 },
          { (default : Attachment) with next := none }] ∧
    (TNEFFile.attachments
        { (default : TNEFStruct) with
          starting_attach := { (default : Attachment) with next := some 0 },
          attachHeap := [{ (default : Attachment) with next := some 1 },
            { (default : Attachment) with next := none }] } 5).head? =
      some { (default : Attachment) with next := some 0 } ∧
    1 ≤ (TNEFFile.attachments
        { (default : TNEFStruct) with
          starting_attach := { (default : Attachment) with next := some 0 },
          attachHeap := [{ (default : Attachment) with next := some 1 },
            { (default : Attachment) with next := none }] } 5).length :=
  C1_attachments _ 5
    [{ (default : Attachment) with next := some 1 },
      { (default : Attachment) with next := none }]
    (NullTerminated.cons rfl (NullTerminated.cons rfl NullTerminated.nil))
    (by decide)

/-- Claim C2: the three construction paths — a reader yielding the bytes,
a file path whose file holds the bytes, and the bytes in memory — wrap
the same decoder core identically, so on the same successfully decoded
bytes they produce equal results, and in particular documents with
identical header fields, attachment sequences and MAPI property
sequences. -/
theorem C2_construction_paths (parse : ParseCore) (fs : List Nat → List Nat)
    (path bytes : List Nat) (hfs : fs path = bytes)
    (hpath : path.contains 0 = false) :
    TNEFFile.new parse bytes = TNEFFile.from_file parse fs path ∧
    TNEFFile.new parse bytes = TNEFFile.from_buffer parse bytes ∧
    ∀ d1 d2 : TNEFStruct, ∀ fuel : Nat,
      TNEFFile.new parse bytes = .ok d1 →
      TNEFFile.from_file parse fs path = .ok d2 →
      d1 = d2 ∧
      TNEFFile.attachments d1 fuel = TNEFFile.attachments d2 fuel ∧
      TNEFFile.mapi_properties d1 = TNEFFile.mapi_properties d2 ∧
      TNEFFile.date_sent d1 = TNEFFile.date_sent d2 ∧
      string_from_varlen d1.subject = string_from_varlen d2.subject := by
  have h1 : TNEFFile.from_file parse fs path = TNEFFile.new parse bytes := by
    have hnc : ¬ path.contains 0 = true := by
      rw [hpath]
      exact Bool.false_ne_true
    unfold TNEFFile.from_file TNEFFile.new
    rw [hfs, if_neg hnc]
  refine ⟨h1.symm, rfl, ?_⟩
  intro d1 d2 fuel hd1 hd2
  rw [h1, hd1] at hd2
  cases hd2
  exact ⟨rfl, rfl, rfl, rfl, rfl⟩

/-- Witness for C2 with a one-byte input, a trivially succeeding core and
a file system holding that byte at path `[1]`. -/
theorem C2_construction_paths_witness :
    TNEFFile.new (fun _ => (0, default)) [1] =
      TNEFFile.from_file (fun _ => (0, default)) (fun _ => [1]) [1] ∧
    TNEFFile.new (fun _ => (0, default)) [1] =
      TNEFFile.from_buffer (fun _ => (0, default)) [1] ∧
    ∀ d1 d2 : TNEFStruct, ∀ fuel : Nat,
      TNEFFile.new (fun _ => (0, default)) [1] = .ok d1 →
      TNEFFile.from_file (fun _ => (0, default)) (fun _ => [1]) [1] = .ok d2 →
      d1 = d2 ∧
      TNEFFile.attachments d1 fuel = TNEFFile.attachments d2 fuel ∧
      TNEFFile.mapi_properties d1 = TNEFFile.mapi_properties d2 ∧
      TNEFFile.date_sent d1 = TNEFFile.date_sent d2 ∧
      string_from_varlen d1.subject = string_from_varlen d2.subject :=
  C2_construction_paths (fun _ => (0, default)) (fun _ => [1]) [1] [1] rfl (by decide)

/-- Claim C8: `open` and `close` always return 0; `read` computes the
requested total as `byte_size * element_count`, allocates a fresh buffer
of exactly that length, overwrites exactly that many bytes of the
destination, and returns the number of bytes the underlying reader
actually produced, or `-1` when the reader reports an I/O failure. -/
theorem C8_io_adapter (size count : Int) (dest : List Nat) (outcome : ReadOutcome)
    (hs : 0 ≤ size) (hc : 0 ≤ count) (hsc : size * count < 2 ^ 31)
    (hdest : (size * count).toNat ≤ dest.length)
    (hout : ∀ bs, outcome = .ok bs → bs.length ≤ (size * count).toNat) :
    tnef_io_open = 0 ∧ tnef_io_close = 0 ∧
    ∃ written : List Nat,
      written.length = (size * count).toNat ∧
      (tnef_io_read size count dest outcome).1 =
        written ++ dest.drop (size * count).toNat ∧
      ((tnef_io_read size count dest outcome).1).length = dest.length ∧
      (∀ bs, outcome = .ok bs →
        (tnef_io_read size count dest outcome).2 = bs.length ∧
        written.take bs.length = bs) ∧
      (outcome = .err → (tnef_io_read size count dest outcome).2 = -1) := by
  have hnn : 0 ≤ size * count := mul_nonneg hs hc
  have hbsz : castUsize (wrapI32 (size * count)) = (size * count).toNat := by
    unfold castUsize wrapI32
    omega
  refine ⟨rfl, rfl, ?_⟩
  cases outcome with
  | err =>
    refine ⟨List.replicate (size * count).toNat 0, ?_, ?_, ?_, ?_, ?_⟩
    · simp
    · simp [tnef_io_read, hbsz]
    · simp [tnef_io_read, hbsz]
      omega
    · intro bs hbs
      cases hbs
    · intro _
      rfl
  | ok bs =>
    have hlen : bs.length ≤ (size * count).toNat := hout bs rfl
    have hwrap : wrapI32 (bs.length : Int) = (bs.length : Int) := by
      unfold wrapI32
      omega
    refine ⟨bs.take (size * count).toNat ++
      List.replicate ((size * count).toNat - bs.length) 0, ?_, ?_, ?_, ?_, ?_⟩
    · simp [List.length_take]
      omega
    · simp [tnef_io_read, hbsz]
    · simp [tnef_io_read, hbsz]
      omega
    · intro bs' hbs'
      cases hbs'
      refine ⟨by simp [tnef_io_read, hwrap], ?_⟩
      rw [List.take_of_length_le hlen]
      exact List.take_left bs _
    · intro hbs
      cases hbs

/-- Witness for C8: a 2×3-byte request against a 6-byte destination,
served with four bytes by the reader. -/
theorem C8_io_adapter_witness :
    tnef_io_open = 0 ∧ tnef_io_close = 0 ∧
    ∃ written : List Nat,
      written.length = ((2 : Int) * 3).toNat ∧
      (tnef_io_read 2 3 [9, 9, 9, 9, 9, 9] (.ok [1, 2, 3, 4])).1 =
        written ++ List.drop ((2 : Int) * 3).toNat [9, 9, 9, 9, 9, 9] ∧
      ((tnef_io_read 2 3 [9, 9, 9, 9, 9, 9] (.ok [1, 2, 3, 4])).1).length =
        List.length [9, 9, 9, 9, 9, 9] ∧
      (∀ bs, ReadOutcome.ok [1, 2, 3, 4] = .ok bs →
        (tnef_io_read 2 3 [9, 9, 9, 9, 9, 9] (.ok [1, 2, 3, 4])).2 = bs.length ∧
        written.take bs.length = bs) ∧
      (ReadOutcome.ok [1, 2, 3, 4] = .err →
        (tnef_io_read 2 3 [9, 9, 9, 9, 9, 9] (.ok [1, 2, 3, 4])).2 = -1) :=
  C8_io_adapter 2 3 [9, 9, 9, 9, 9, 9] (.ok [1, 2, 3, 4])
    (by decide) (by decide) (by decide) (by decide)
    (by intro bs hbs; cases hbs; decide)

end Ytnef
